import Mathlib

/-!
Verification of the synchronization / conflict-resolution engine of
`newsletter-cli` (Go).  The Go source in `internal/api` (sync.go, autosync.go,
the merge file and the sync-queue file) and `internal/config` is shallowly
embedded below: pure Go functions become Lean functions, stateful code
becomes explicit state passing, `time.Time` becomes an `Int` count of
nanoseconds, and fallible calls become `Except`/`Option` parameters supplied
by the environment.

Modelling conventions, stated once:

* Go `map[string]T` built from a slice is embedded as lookup in the slice
  with Go's last-write-wins semantics (`goGet` below).
* Go's `range` over a map visits keys in an unspecified order; the embedding
  fixes the order of first insertion (keys of the local collection in list
  order, then the cloud-only keys in list order), which is one of the orders
  Go may produce.
* `time.Time` comparisons `After`/`Before` are strict `>`/`<` on the
  nanosecond count; `time.Duration` subtraction is `Int` subtraction.
-/

namespace NewsletterSync

/-- `config.Account` from `internal/config/store.go`. -/
structure Account where
  id : String
  name : String
  email : String
  server : String
  password : String
  createdAt : Int
  deriving DecidableEq, Repr

/-- `config.UnsubscribedNewsletter` from `internal/config/unsubscribed.go`. -/
structure UnsubscribedNewsletter where
  sender : String
  unsubscribedAt : Int
  deriving DecidableEq, Repr

/-- The dynamic (`interface{}`) `Local`/`Cloud` fields of a `SyncConflict`:
account conflicts carry strings, unsubscribed conflicts carry timestamps. -/
inductive SyncValue where
  | str (s : String)
  | time (t : Int)
  deriving DecidableEq, Repr

/-- `api.SyncConflict` from the merge file. -/
structure SyncConflict where
  typ : String
  id : String
  field : String
  localVal : SyncValue
  cloudVal : SyncValue
  resolved : Bool
  localTime : Int
  cloudTime : Int
  deriving DecidableEq, Repr

/-- Lookup in a Go map built by inserting the elements of `l` in order,
keyed by `key`: the last insertion for a given key wins. -/
def goGet {α : Type} (key : α → String) : List α → String → Option α
  | [], _ => none
  | a :: rest, i =>
    match goGet key rest i with
    | some x => some x
    | none => if key a == i then some a else none

/-- Keys of a Go map in first-insertion order: duplicates removed, first
occurrence kept.  `seen` is the set of keys already emitted. -/
def dedupAux : List String → List String → List String
  | _, [] => []
  | seen, i :: rest =>
    if seen.contains i then dedupAux seen rest
    else i :: dedupAux (seen ++ [i]) rest

def dedupKeys (l : List String) : List String := dedupAux [] l

/-- The `allIDs` set of `ThreeWayMergeAccounts` (and the `allSenders` set of
`ThreeWayMergeUnsubscribed`): union of the key sets of the local and cloud
maps, in the embedding's canonical first-insertion order. -/
def allKeys {α : Type} (key : α → String) (localL cloudL : List α) : List String :=
  dedupKeys (localL.map key ++ cloudL.map key)

/-- One iteration of the `for id := range allIDs` loop body of
`ThreeWayMergeAccounts`: the entities appended to `result` and the conflicts
appended to `conflicts` for this `id`. -/
def mergeAccountEntry (localL cloudL baseL : List Account) (i : String) :
    List Account × List SyncConflict :=
  match goGet Account.id localL i, goGet Account.id cloudL i with
  | none, some cloudAcc => ([cloudAcc], [])
  | some localAcc, none => ([localAcc], [])
  | some localAcc, some cloudAcc =>
    match goGet Account.id baseL i with
    | none =>
      -- no base: compare timestamps, local wins ties
      if localAcc.createdAt > cloudAcc.createdAt then ([localAcc], [])
      else if cloudAcc.createdAt > localAcc.createdAt then ([cloudAcc], [])
      else ([localAcc], [])
    | some baseAcc =>
      let localChanged := (localAcc.name != baseAcc.name) ||
        (localAcc.server != baseAcc.server) || (localAcc.email != baseAcc.email)
      let cloudChanged := (cloudAcc.name != baseAcc.name) ||
        (cloudAcc.server != baseAcc.server) || (cloudAcc.email != baseAcc.email)
      if localChanged && cloudChanged then
        -- both changed: record the name/server disagreements, keep local
        let nameConflicts :=
          if localAcc.name != cloudAcc.name then
            [⟨"account", i, "name", .str localAcc.name, .str cloudAcc.name,
              false, localAcc.createdAt, cloudAcc.createdAt⟩]
          else []
        let serverConflicts :=
          if localAcc.server != cloudAcc.server then
            [⟨"account", i, "server", .str localAcc.server, .str cloudAcc.server,
              false, localAcc.createdAt, cloudAcc.createdAt⟩]
          else []
        ([localAcc], nameConflicts ++ serverConflicts)
      else if localChanged then ([localAcc], [])
      else if cloudChanged then ([cloudAcc], [])
      else ([localAcc], [])
  | none, none => ([], [])

/-- `api.ThreeWayMergeAccounts`. -/
def ThreeWayMergeAccounts (localL cloudL baseL : List Account) :
    List Account × List SyncConflict :=
  (allKeys Account.id localL cloudL).foldl
    (fun acc i => (acc.1 ++ (mergeAccountEntry localL cloudL baseL i).1,
                   acc.2 ++ (mergeAccountEntry localL cloudL baseL i).2))
    ([], [])

/-- `24 * time.Hour` in nanoseconds. -/
def dayNanos : Int := 86400000000000

/-- One iteration of the `for sender := range allSenders` loop body of
`ThreeWayMergeUnsubscribed`.  The Go function builds a `baseMap` but never
reads it, so the base list does not appear here. -/
def mergeUnsubEntry (localL cloudL : List UnsubscribedNewsletter) (s : String) :
    List UnsubscribedNewsletter × List SyncConflict :=
  match goGet UnsubscribedNewsletter.sender localL s,
        goGet UnsubscribedNewsletter.sender cloudL s with
  | none, some cloudItem => ([cloudItem], [])
  | some localItem, none => ([localItem], [])
  | some localItem, some cloudItem =>
    let kept :=
      if localItem.unsubscribedAt < cloudItem.unsubscribedAt then localItem
      else cloudItem
    let diff := localItem.unsubscribedAt - cloudItem.unsubscribedAt
    let confl :=
      if diff > dayNanos || diff < -dayNanos then
        [⟨"unsubscribed", s, "unsubscribed_at",
          .time localItem.unsubscribedAt, .time cloudItem.unsubscribedAt,
          false, localItem.unsubscribedAt, cloudItem.unsubscribedAt⟩]
      else []
    ([kept], confl)
  | none, none => ([], [])

/-- `api.ThreeWayMergeUnsubscribed`.  The third argument (the base list) is
kept for interface fidelity; the Go function only stores it in a map it
never reads. -/
def ThreeWayMergeUnsubscribed
    (localL cloudL _baseL : List UnsubscribedNewsletter) :
    List UnsubscribedNewsletter × List SyncConflict :=
  (allKeys UnsubscribedNewsletter.sender localL cloudL).foldl
    (fun acc s => (acc.1 ++ (mergeUnsubEntry localL cloudL s).1,
                   acc.2 ++ (mergeUnsubEntry localL cloudL s).2))
    ([], [])

/-! ### Checksums (`CalculateChecksum`, `CalculateUnsubscribedChecksum`)

The Go functions build a serialization string and hash it with SHA-256
(`crypto/sha256`), returning the hex digest.  SHA-256 is implemented below
over `Nat` words reduced mod `2^32`. -/

/-- Truncate to a 32-bit word. -/
def w32 (n : Nat) : Nat := n % 4294967296

/-- Right-rotation of a 32-bit word (the two shifted parts are disjoint, so
`+` is the bitwise or). -/
def rotr32 (x n : Nat) : Nat := x / 2 ^ n + x % 2 ^ n * 2 ^ (32 - n)

def bigSig0 (x : Nat) : Nat := rotr32 x 2 ^^^ rotr32 x 13 ^^^ rotr32 x 22

def bigSig1 (x : Nat) : Nat := rotr32 x 6 ^^^ rotr32 x 11 ^^^ rotr32 x 25

def smallSig0 (x : Nat) : Nat := rotr32 x 7 ^^^ rotr32 x 18 ^^^ x / 2 ^ 3

def smallSig1 (x : Nat) : Nat := rotr32 x 17 ^^^ rotr32 x 19 ^^^ x / 2 ^ 10

def chf (x y z : Nat) : Nat := (x &&& y) ^^^ ((4294967295 - x) &&& z)

def majf (x y z : Nat) : Nat := ((x &&& y) ^^^ (x &&& z)) ^^^ (y &&& z)

/-- The 64 SHA-256 round constants (FIPS 180-4, written in decimal). -/
def K256 : List Nat :=
  [1116352408, 1899447441, 3049323471, 3921009573, 961987163,
   1508970993, 2453635748, 2870763221, 3624381080, 310598401,
   607225278, 1426881987, 1925078388, 2162078206, 2614888103,
   3248222580, 3835390401, 4022224774, 264347078, 604807628,
   770255983, 1249150122, 1555081692, 1996064986, 2554220882,
   2821834349, 2952996808, 3210313671, 3336571891, 3584528711,
   113926993, 338241895, 666307205, 773529912, 1294757372,
   1396182291, 1695183700, 1986661051, 2177026350, 2456956037,
   2730485921, 2820302411, 3259730800, 3345764771, 3516065817,
   3600352804, 4094571909, 275423344, 430227734, 506948616,
   659060556, 883997877, 958139571, 1322822218, 1537002063,
   1747873779, 1955562222, 2024104815, 2227730452, 2361852424,
   2428436474, 2756734187, 3204031479, 3329325298]

/-- The SHA-256 initial hash state (in decimal). -/
def H256 : List Nat :=
  [1779033703, 3144134277, 1013904242, 2773480762,
   1359893119, 2600822924, 528734635, 1541459225]

/-- Extend the 16-word message schedule to 64 words (`fuel` = 48). -/
def extendW : Nat → List Nat → List Nat
  | 0, ws => ws
  | n + 1, ws =>
    let t := ws.length
    let w := w32 (smallSig1 (ws.getD (t - 2) 0) + ws.getD (t - 7) 0 +
      smallSig0 (ws.getD (t - 15) 0) + ws.getD (t - 16) 0)
    extendW n (ws ++ [w])

/-- One SHA-256 compression round on the 8-word working state. -/
def roundStep (st : List Nat) (kw : Nat × Nat) : List Nat :=
  match st with
  | [a, b, c, d, e, f, g, h] =>
    let t1 := w32 (h + bigSig1 e + chf e f g + kw.1 + kw.2)
    let t2 := w32 (bigSig0 a + majf a b c)
    [w32 (t1 + t2), a, b, c, w32 (d + t1), e, f, g]
  | other => other

/-- Compress one 16-word block into the hash state. -/
def compress (hs : List Nat) (block16 : List Nat) : List Nat :=
  let ws := extendW 48 block16
  let fin := (K256.zip ws).foldl roundStep hs
  (hs.zip fin).map (fun p => w32 (p.1 + p.2))

/-- Big-endian 4-byte words from a byte list. -/
def toWords : List Nat → List Nat
  | b0 :: b1 :: b2 :: b3 :: rest =>
    (((b0 * 256 + b1) * 256 + b2) * 256 + b3) :: toWords rest
  | _ => []

/-- 8 big-endian bytes of `n` (the 64-bit bit-length field). -/
def beBytes8 (n : Nat) : List Nat :=
  [n / 2 ^ 56 % 256, n / 2 ^ 48 % 256, n / 2 ^ 40 % 256, n / 2 ^ 32 % 256,
   n / 2 ^ 24 % 256, n / 2 ^ 16 % 256, n / 2 ^ 8 % 256, n % 256]

/-- SHA-256 padding: `0x80`, zeros to 56 mod 64, then the bit length. -/
def padMessage (msg : List Nat) : List Nat :=
  msg ++ [128] ++ List.replicate ((119 - msg.length % 64) % 64) 0 ++
    beBytes8 (msg.length * 8)

/-- Split a padded byte list into 16-word blocks (`fuel` bounds recursion). -/
def toBlocks : Nat → List Nat → List (List Nat)
  | 0, _ => []
  | _, [] => []
  | fuel + 1, bytes => toWords (bytes.take 64) :: toBlocks fuel (bytes.drop 64)

def sha256Words (msg : List Nat) : List Nat :=
  let padded := padMessage msg
  (toBlocks padded.length padded).foldl compress H256

def hexDigit (n : Nat) : Char :=
  if n < 10 then Char.ofNat (48 + n) else Char.ofNat (87 + n)

def wordHex (w : Nat) : String :=
  String.mk ((List.range 8).map (fun k => hexDigit (w / 2 ^ (4 * (7 - k)) % 16)))

/-- Hex digest of the SHA-256 of a byte list (Go's
`hex.EncodeToString(sha256.Sum256(data))`). -/
def sha256Hex (msg : List Nat) : String :=
  String.join ((sha256Words msg).map wordHex)

/-- Go's `[]byte(s)`: the UTF-8 bytes of a string. -/
def utf8Bytes (s : String) : List Nat :=
  (s.data.flatMap String.utf8EncodeChar).map UInt8.toNat

/-- The serialization string built by `CalculateChecksum`:
`fmt.Sprintf("%s|%s|%s|%s|", acc.ID, acc.Name, acc.Email, acc.Server)`
concatenated over the slice in order. -/
def accountChecksumData (accounts : List Account) : String :=
  accounts.foldl
    (fun data acc =>
      data ++ acc.id ++ "|" ++ acc.name ++ "|" ++ acc.email ++ "|" ++
        acc.server ++ "|")
    ""

/-- `api.CalculateChecksum`. -/
def CalculateChecksum (accounts : List Account) : String :=
  sha256Hex (utf8Bytes (accountChecksumData accounts))

/-- Rendering of a timestamp in the unsubscribed checksum.  The Go source
formats it with `time.RFC3339`; the embedding renders the nanosecond count
in decimal — both are injective renderings of the timestamp, and no claim
depends on the concrete digits. -/
def timeText (t : Int) : String := toString t

/-- The serialization string built by `CalculateUnsubscribedChecksum`:
`fmt.Sprintf("%s|%s|", n.Sender, n.UnsubscribedAt.Format(time.RFC3339))`
concatenated over the slice in order. -/
def unsubChecksumData (newsletters : List UnsubscribedNewsletter) : String :=
  newsletters.foldl
    (fun data n => data ++ n.sender ++ "|" ++ timeText n.unsubscribedAt ++ "|")
    ""

/-- `api.CalculateUnsubscribedChecksum`. -/
def CalculateUnsubscribedChecksum
    (newsletters : List UnsubscribedNewsletter) : String :=
  sha256Hex (utf8Bytes (unsubChecksumData newsletters))

/-! ### The retry queue (`sync_queue.go`) -/

/-- The payload of a `PendingSync` (`json.RawMessage` in Go, carrying the
serialized collection snapshot). -/
inductive SyncPayload where
  | accounts (accs : List Account)
  | unsubscribed (newsletters : List UnsubscribedNewsletter)
  deriving DecidableEq, Repr

/-- `api.PendingSync`. -/
structure PendingSync where
  typ : String
  data : SyncPayload
  queuedAt : Int
  retries : Nat
  lastError : String
  deriving DecidableEq, Repr

/-- Go's `strings.Contains`. -/
def containsSubstr (hay needle : String) : Bool :=
  hay.toList.tails.any (fun t => needle.toList.isPrefixOf t)

/-- Go's `strings.ToLower` (on the ASCII range exercised by the error
markers; core's `String.map` is kernel-irreducible, so the embedding maps
`Char.toLower` over the character list, the same function). -/
def toLowerStr (s : String) : String := ⟨s.data.map Char.toLower⟩

/-- `api.isSubscriptionError` from `sync.go`. -/
def isSubscriptionError (errStr : String) : Bool :=
  let errLower := toLowerStr errStr
  containsSubstr errLower "403" ||
  containsSubstr errLower "forbidden" ||
  containsSubstr errLower "subscription" ||
  containsSubstr errLower "active subscription required" ||
  containsSubstr errLower "account limit" ||
  containsSubstr errLower "upgrade your subscription"

/-- `SyncQueue.QueueSync`: append a pending operation with retry count 0. -/
def QueueSync (queue : List PendingSync) (syncType : String)
    (data : SyncPayload) (now : Int) : List PendingSync :=
  queue ++ [{ typ := syncType, data := data, queuedAt := now, retries := 0,
              lastError := "" }]

/-- The body of the `for _, pending := range sq.pending` loop of
`SyncQueue.ProcessQueue`, accumulating the `remaining` list and `lastErr`.

Go declares `var err error` at the top of the loop body, then in each switch
case writes `if err := json.Unmarshal(...); err == nil { err =
sync...WithRetry(...) }`.  The `err` declared by the `if` initializer
shadows the outer `err`, so the push attempt's outcome is assigned to the
shadowed variable and the outer `err` consulted below is still `nil`; the
embedding keeps both variables to make the shadowing visible.  (The two Go
branches for `pending.Retries < 3` both re-append the item, so they appear
as a single append here.) -/
def processQueueStep (attempt : PendingSync → Option String)
    (acc : List PendingSync × Option String) (p : PendingSync) :
    List PendingSync × Option String :=
  let _shadowedErr : Option String := attempt p
  let err : Option String := none
  match err with
  | some errStr =>
    if isSubscriptionError errStr then (acc.1, some errStr)
    else (acc.1 ++ [{ p with retries := p.retries + 1, lastError := errStr }],
          some errStr)
  | none => acc

/-- `SyncQueue.ProcessQueue`.  `attempt p` is the outcome of the push
attempt for item `p` (`none` = success, `some errStr` = the error text);
`premiumEnabled` is `IsPremiumEnabled()`. -/
def ProcessQueue (premiumEnabled : Bool)
    (attempt : PendingSync → Option String)
    (pending : List PendingSync) : List PendingSync × Option String :=
  if premiumEnabled = false then (pending, none)
  else if pending.length = 0 then (pending, none)
  else pending.foldl (processQueueStep attempt) ([], none)

/-! ### Pushing a collection (`SyncAccountsToCloud`,
`SyncUnsubscribedToCloud` from `sync.go`)

`resp` is the outcome of `syncClient.UpdateAccounts` /
`syncClient.UpdateUnsubscribed`: `.error errStr` for a failed push, `.ok v`
for a successful one where `v` is the server-assigned collection version.
The returned triple is (queue after the call, error returned to the caller,
the version recorded into the premium config on success). -/

def SyncAccountsToCloud (premiumEnabled : Bool) (now : Int)
    (accounts : List Account) (resp : Except String Int)
    (queue : List PendingSync) :
    List PendingSync × Option String × Option Int :=
  if premiumEnabled = false then
    (queue, some "premium features not enabled", none)
  else
    match resp with
    | .error errStr =>
      if isSubscriptionError errStr then
        (queue, some ("sync failed: " ++ errStr), none)
      else
        (QueueSync queue "accounts" (.accounts accounts) now,
         some ("sync failed: " ++ errStr ++ " (queued for background retry)"),
         none)
    | .ok version => (queue, none, some version)

def SyncUnsubscribedToCloud (premiumEnabled : Bool) (now : Int)
    (store : List UnsubscribedNewsletter) (resp : Except String Int)
    (queue : List PendingSync) :
    List PendingSync × Option String × Option Int :=
  if premiumEnabled = false then
    (queue, some "premium features not enabled", none)
  else
    match resp with
    | .error errStr =>
      if isSubscriptionError errStr then
        (queue, some ("sync failed: " ++ errStr), none)
      else
        (QueueSync queue "unsubscribed" (.unsubscribed store) now,
         some ("sync failed: " ++ errStr ++ " (queued for background retry)"),
         none)
    | .ok version => (queue, none, some version)

/-! ### The startup check (`CheckAndSyncIfNeeded` from `autosync.go`)

State and environment for the startup pull.  The world holds the persisted
local state (premium config with the two remembered versions, the accounts
file, the unsubscribed file) plus a counter of push (`PUT`) calls; the
environment holds the outcomes of the network reads and of each fallible
local I/O step. -/

/-- The two remembered collection versions of the persisted premium
config (`LocalAccountsVersion`, `LocalUnsubscribedVersion`). -/
structure PremiumState where
  localAccountsVersion : Int
  localUnsubscribedVersion : Int
  deriving DecidableEq, Repr

structure World where
  premium : PremiumState
  accounts : List Account
  unsub : List UnsubscribedNewsletter
  pushCalls : Nat
  deriving DecidableEq, Repr

/-- `api.AccountsData` (version read plus parsed accounts payload). -/
structure AccountsData where
  accounts : List Account
  version : Int
  deriving DecidableEq, Repr

/-- `api.UnsubscribedData` (version read plus parsed newsletters). -/
structure UnsubData where
  newsletters : List UnsubscribedNewsletter
  version : Int
  deriving DecidableEq, Repr

/-- Outcomes of the network and local-I/O steps of one
`CheckAndSyncIfNeeded` run.  `getAccounts1`/`getUnsub1` are the initial
version reads; `getAccounts2`/`getUnsub2` are the second reads performed
inside `SyncAccountsFromCloud` / `SyncUnsubscribedFromCloud`. -/
structure AutoSyncEnv where
  premiumEnabled : Bool
  getAccounts1 : Except String AccountsData
  getAccounts2 : Except String AccountsData
  getUnsub1 : Except String UnsubData
  getUnsub2 : Except String UnsubData
  cfgLoadOk : Bool
  cfgSaveOk : Bool
  unsubLoadOk : Bool
  unsubParseOk : Bool
  unsubSaveOk : Bool
  premiumSaveOk : Bool
  premiumSaveBestEffortOk : Bool

/-- The cloud accounts appended by the pull: those whose ID is not among the
existing local IDs (`existingIDs` in the Go loop). -/
def newAccounts (existing cloud : List Account) : List Account :=
  cloud.filter (fun a => !((existing.map Account.id).contains a.id))

/-- The cloud newsletters appended by the pull: those whose sender is not
among the existing local senders. -/
def newUnsubs (existing cloud : List UnsubscribedNewsletter) :
    List UnsubscribedNewsletter :=
  cloud.filter
    (fun n => !((existing.map UnsubscribedNewsletter.sender).contains n.sender))

/-- The accounts section of `CheckAndSyncIfNeeded` (lines 29-64): version
check, pull, append-only merge, save, in-memory version update.  Returns the
updated in-memory premium config, the `synced` contribution, and the world.
The remembered version is updated in memory when the merge appended nothing,
or when it appended entries and the accounts file was saved successfully;
the world's accounts change only in the latter case. -/
def accountsPhase (env : AutoSyncEnv) (pc : PremiumState) (w : World) :
    PremiumState × Bool × World :=
  match env.getAccounts1 with
  | .error _ => (pc, false, w)
  | .ok d1 =>
    if d1.version > pc.localAccountsVersion then
      match env.getAccounts2 with
      | .error _ => (pc, false, w)
      | .ok d2 =>
        if env.cfgLoadOk = false then (pc, false, w)
        else
          let added := newAccounts w.accounts d2.accounts
          if added = [] then
            ({ pc with localAccountsVersion := d1.version }, false, w)
          else if env.cfgSaveOk then
            ({ pc with localAccountsVersion := d1.version }, true,
             { w with accounts := w.accounts ++ added })
          else (pc, false, w)
    else (pc, false, w)

/-- The unsubscribed section of `CheckAndSyncIfNeeded` (lines 66-103).
`SyncUnsubscribedFromCloud` performs the second read and, before parsing,
writes the freshly read version into the *persisted* premium config as a
best-effort save (`sync.go` lines 588-593); if the local unsubscribed store
fails to load, the Go code substitutes an empty store. -/
def unsubPhase (env : AutoSyncEnv) (pc : PremiumState) (w : World) :
    PremiumState × Bool × World :=
  match env.getUnsub1 with
  | .error _ => (pc, false, w)
  | .ok d1 =>
    if d1.version > pc.localUnsubscribedVersion then
      match env.getUnsub2 with
      | .error _ => (pc, false, w)
      | .ok d2 =>
        let w1 := if env.premiumSaveBestEffortOk then
            { w with premium :=
              { w.premium with localUnsubscribedVersion := d2.version } }
          else w
        if env.unsubParseOk = false then (pc, false, w1)
        else
          let localList := if env.unsubLoadOk then w1.unsub else []
          let added := newUnsubs localList d2.newsletters
          if added = [] then
            ({ pc with localUnsubscribedVersion := d1.version }, false, w1)
          else if env.unsubSaveOk then
            ({ pc with localUnsubscribedVersion := d1.version }, true,
             { w1 with unsub := localList ++ added })
          else (pc, false, w1)
    else (pc, false, w)

/-- `api.CheckAndSyncIfNeeded`: runs the two pull sections on the in-memory
premium config read at entry, then persists that config only when `synced`
is set.  Returns ((synced, error), final world).  The function makes no
`PUT` call, so `pushCalls` is never incremented. -/
def CheckAndSyncIfNeeded (env : AutoSyncEnv) (w : World) :
    (Bool × Option String) × World :=
  if env.premiumEnabled = false then ((false, none), w)
  else
    let pc0 := w.premium
    let r1 := accountsPhase env pc0 w
    let r2 := unsubPhase env r1.1 r1.2.2
    let synced := r1.2.1 || r2.2.1
    if synced then
      if env.premiumSaveOk then ((true, none), { r2.2.2 with premium := r2.1 })
      else ((false, some "failed to save premium config"), r2.2.2)
    else ((false, none), r2.2.2)

/-! ### Concrete inputs used in closed evaluations -/

/-- A queued accounts push with retry count 0. -/
def pendingAccountsItem : PendingSync :=
  { typ := "accounts",
    data := .accounts [⟨"a@x.com", "A", "a@x.com", "imap.x.com", "", 0⟩],
    queuedAt := 0, retries := 0, lastError := "" }

/-- Accounts payload of a concrete startup-check run: remote version 2, one
account whose ID is already local (with a changed name). -/
def staleAccountsData : AccountsData :=
  ⟨[⟨"a@x.com", "CloudName", "a@x.com", "imap.x.com", "", 0⟩], 2⟩

/-- Environment of a concrete startup-check run where the remote accounts
version is newer but every pulled account ID is already local, and the
unsubscribed side is not stale; all I/O succeeds. -/
def staleEnv : AutoSyncEnv :=
  { premiumEnabled := true,
    getAccounts1 := .ok staleAccountsData,
    getAccounts2 := .ok staleAccountsData,
    getUnsub1 := .ok ⟨[], 1⟩,
    getUnsub2 := .ok ⟨[], 1⟩,
    cfgLoadOk := true, cfgSaveOk := true, unsubLoadOk := true,
    unsubParseOk := true, unsubSaveOk := true, premiumSaveOk := true,
    premiumSaveBestEffortOk := true }

/-- Local state of that run: remembered versions 1/1, the same account ID
present locally (with the local name). -/
def staleWorld : World :=
  { premium := ⟨1, 1⟩,
    accounts := [⟨"a@x.com", "LocalName", "a@x.com", "imap.x.com", "", 0⟩],
    unsub := [], pushCalls := 0 }

/-- Accounts payload of a startup-check run that does bring a new account:
remote version 2 with an ID absent locally. -/
def freshAccountsData : AccountsData :=
  ⟨[⟨"b@x.com", "B", "b@x.com", "imap.x.com", "", 0⟩], 2⟩

/-- Unsubscribed payload of a startup-check run that brings a new sender:
remote version 3 with a sender absent locally. -/
def freshUnsubData : UnsubData := ⟨[⟨"new@y.com", 5⟩], 3⟩

/-- Same environment as `staleEnv` but both pulled collections contain a
new identifier. -/
def freshEnv : AutoSyncEnv :=
  { staleEnv with
    getAccounts1 := .ok freshAccountsData,
    getAccounts2 := .ok freshAccountsData,
    getUnsub1 := .ok freshUnsubData,
    getUnsub2 := .ok freshUnsubData }

/-! ### Lemmas about `goGet` (Go map lookup) -/

theorem goGet_eq_some {α : Type} (key : α → String) :
    ∀ {l : List α} {i : String} {a : α},
      goGet key l i = some a → key a = i ∧ a ∈ l := by
  intro l
  induction l with
  | nil => intro i a h; simp [goGet] at h
  | cons b rest ih =>
    intro i a h
    simp only [goGet] at h
    cases hr : goGet key rest i with
    | some x =>
      rw [hr] at h
      cases h
      rcases ih hr with ⟨h1, h2⟩
      exact ⟨h1, List.mem_cons_of_mem _ h2⟩
    | none =>
      rw [hr] at h
      by_cases hb : (key b == i) = true
      · rw [if_pos hb] at h
        cases h
        exact ⟨by simpa using hb, List.mem_cons_self _ _⟩
      · rw [if_neg hb] at h
        cases h

theorem goGet_mem_map {α : Type} (key : α → String) :
    ∀ {l : List α} {i : String}, i ∈ l.map key → ∃ a, goGet key l i = some a := by
  intro l
  induction l with
  | nil => intro i h; simp at h
  | cons b rest ih =>
    intro i h
    simp only [goGet]
    cases hr : goGet key rest i with
    | some x => exact ⟨x, rfl⟩
    | none =>
      have hib : key b = i := by
        rcases List.mem_map.mp h with ⟨a, ha, hk⟩
        rcases List.mem_cons.mp ha with heq | ha'
        · exact heq ▸ hk
        · rcases ih (List.mem_map.mpr ⟨a, ha', hk⟩) with ⟨x, hx⟩
          rw [hx] at hr
          cases hr
      exact ⟨b, by simp [hib]⟩

theorem goGet_self {α : Type} (key : α → String) :
    ∀ {l : List α}, (l.map key).Nodup → ∀ {a : α}, a ∈ l →
      goGet key l (key a) = some a := by
  intro l
  induction l with
  | nil => intro _ a h; simp at h
  | cons b rest ih =>
    intro hnd a ha
    rw [List.map_cons, List.nodup_cons] at hnd
    rcases hnd with ⟨hb, hrest⟩
    simp only [goGet]
    rcases List.mem_cons.mp ha with rfl | ha'
    · cases hr : goGet key rest (key a) with
      | some x =>
        exact absurd (List.mem_map.mpr ⟨x, (goGet_eq_some key hr).2,
          (goGet_eq_some key hr).1⟩) hb
      | none => simp
    · rw [ih hrest ha']

/-! ### Lemmas about key deduplication (`allKeys`) -/

theorem dedupAux_append (seen xs ys : List String) :
    dedupAux seen (xs ++ ys) =
      dedupAux seen xs ++ dedupAux (seen ++ dedupAux seen xs) ys := by
  induction xs generalizing seen with
  | nil => simp [dedupAux]
  | cons i rest ih =>
    by_cases h : i ∈ seen
    · simp [dedupAux, h, ih]
    · simp [dedupAux, h, ih, List.append_assoc]

theorem mem_dedupAux :
    ∀ {seen l : List String} {i : String},
      i ∈ dedupAux seen l ↔ i ∈ l ∧ i ∉ seen := by
  intro seen l
  induction l generalizing seen with
  | nil => intro i; simp [dedupAux]
  | cons j rest ih =>
    intro i
    by_cases h : j ∈ seen
    · rw [show dedupAux seen (j :: rest) = dedupAux seen rest by
        simp [dedupAux, h], ih]
      simp only [List.mem_cons]
      constructor
      · rintro ⟨h1, h2⟩; exact ⟨Or.inr h1, h2⟩
      · rintro ⟨h1 | h1, h2⟩
        · exact absurd h (h1 ▸ h2)
        · exact ⟨h1, h2⟩
    · rw [show dedupAux seen (j :: rest) = j :: dedupAux (seen ++ [j]) rest by
        simp [dedupAux, h]]
      simp only [List.mem_cons, ih, List.mem_append, List.mem_singleton]
      constructor
      · rintro (rfl | ⟨h1, h2⟩)
        · exact ⟨Or.inl rfl, h⟩
        · exact ⟨Or.inr h1, fun hm => h2 (Or.inl hm)⟩
      · rintro ⟨rfl | h1, h2⟩
        · exact Or.inl rfl
        · by_cases hij : i = j
          · exact Or.inl hij
          · exact Or.inr ⟨h1, fun hm => by
              rcases hm with hm | hm
              · exact h2 hm
              · rcases hm with hm | hm
                · exact hij hm
                · simp at hm⟩

theorem dedupAux_nodup : ∀ (seen l : List String), (dedupAux seen l).Nodup := by
  intro seen l
  induction l generalizing seen with
  | nil => simp [dedupAux]
  | cons j rest ih =>
    by_cases h : j ∈ seen
    · rw [show dedupAux seen (j :: rest) = dedupAux seen rest by
        simp [dedupAux, h]]
      exact ih seen
    · rw [show dedupAux seen (j :: rest) = j :: dedupAux (seen ++ [j]) rest by
        simp [dedupAux, h]]
      rw [List.nodup_cons]
      refine ⟨fun hmem => ?_, ih _⟩
      rcases mem_dedupAux.mp hmem with ⟨_, h2⟩
      exact h2 (by simp)

theorem dedupAux_of_fresh :
    ∀ {seen l : List String}, l.Nodup → (∀ i ∈ l, i ∉ seen) →
      dedupAux seen l = l := by
  intro seen l
  induction l generalizing seen with
  | nil => intro _ _; simp [dedupAux]
  | cons j rest ih =>
    intro hnd hf
    rcases List.nodup_cons.mp hnd with ⟨hj, hrest⟩
    have hc : j ∉ seen := hf j (by simp)
    rw [show dedupAux seen (j :: rest) = j :: dedupAux (seen ++ [j]) rest by
      simp [dedupAux, hc]]
    congr 1
    refine ih hrest fun i hi hm => ?_
    rcases List.mem_append.mp hm with hm | hm
    · exact hf i (by simp [hi]) hm
    · have : i = j := by simpa using hm
      exact hj (this ▸ hi)

theorem dedupAux_of_sub :
    ∀ {seen l : List String}, (∀ i ∈ l, i ∈ seen) → dedupAux seen l = [] := by
  intro seen l
  induction l generalizing seen with
  | nil => intro _; simp [dedupAux]
  | cons j rest ih =>
    intro hs
    have hc : j ∈ seen := hs j (by simp)
    rw [show dedupAux seen (j :: rest) = dedupAux seen rest by
      simp [dedupAux, hc]]
    exact ih fun i hi => hs i (by simp [hi])

theorem mem_allKeys {α : Type} (key : α → String) (localL cloudL : List α)
    (i : String) :
    i ∈ allKeys key localL cloudL ↔
      i ∈ localL.map key ∨ i ∈ cloudL.map key := by
  simp [allKeys, dedupKeys, mem_dedupAux]

theorem allKeys_nodup {α : Type} (key : α → String) (localL cloudL : List α) :
    (allKeys key localL cloudL).Nodup :=
  dedupAux_nodup _ _

/-! ### Decomposition of the merge fold into per-key contributions -/

theorem foldl_pairAppend {α β : Type} (f : String → List α × List β) :
    ∀ (ids : List String) (r : List α) (cs : List β),
      ids.foldl (fun acc i => (acc.1 ++ (f i).1, acc.2 ++ (f i).2)) (r, cs)
        = (r ++ ids.flatMap fun i => (f i).1,
           cs ++ ids.flatMap fun i => (f i).2) := by
  intro ids
  induction ids with
  | nil => intro r cs; simp
  | cons i rest ih =>
    intro r cs
    simp [List.foldl_cons, ih, List.append_assoc]

theorem mergeAccounts_decomp (localL cloudL baseL : List Account) :
    ThreeWayMergeAccounts localL cloudL baseL =
      ((allKeys Account.id localL cloudL).flatMap
        fun i => (mergeAccountEntry localL cloudL baseL i).1,
       (allKeys Account.id localL cloudL).flatMap
        fun i => (mergeAccountEntry localL cloudL baseL i).2) := by
  have := foldl_pairAppend (mergeAccountEntry localL cloudL baseL)
    (allKeys Account.id localL cloudL) [] []
  simpa [ThreeWayMergeAccounts] using this

theorem mergeUnsub_decomp (localL cloudL baseL : List UnsubscribedNewsletter) :
    ThreeWayMergeUnsubscribed localL cloudL baseL =
      ((allKeys UnsubscribedNewsletter.sender localL cloudL).flatMap
        fun s => (mergeUnsubEntry localL cloudL s).1,
       (allKeys UnsubscribedNewsletter.sender localL cloudL).flatMap
        fun s => (mergeUnsubEntry localL cloudL s).2) := by
  have := foldl_pairAppend (mergeUnsubEntry localL cloudL)
    (allKeys UnsubscribedNewsletter.sender localL cloudL) [] []
  simpa [ThreeWayMergeUnsubscribed] using this

/-! ### Per-key properties of the merge loop bodies -/

theorem mergeAccountEntry_fst {localL cloudL baseL : List Account} {i : String}
    (h : i ∈ localL.map Account.id ∨ i ∈ cloudL.map Account.id) :
    ∃ a, (mergeAccountEntry localL cloudL baseL i).1 = [a] ∧ a.id = i := by
  rcases hl : goGet Account.id localL i with _ | l <;>
    rcases hc : goGet Account.id cloudL i with _ | c
  · rcases h with h | h
    · rcases goGet_mem_map Account.id h with ⟨a, ha⟩
      rw [hl] at ha; cases ha
    · rcases goGet_mem_map Account.id h with ⟨a, ha⟩
      rw [hc] at ha; cases ha
  · exact ⟨c, by simp [mergeAccountEntry, hl, hc], (goGet_eq_some _ hc).1⟩
  · exact ⟨l, by simp [mergeAccountEntry, hl, hc], (goGet_eq_some _ hl).1⟩
  · have hli := (goGet_eq_some _ hl).1
    have hci := (goGet_eq_some _ hc).1
    rcases hb : goGet Account.id baseL i with _ | b <;>
      simp only [mergeAccountEntry, hl, hc, hb] <;> split_ifs <;>
      first
        | exact ⟨l, rfl, hli⟩
        | exact ⟨c, rfl, hci⟩

theorem mergeAccountEntry_fst_id {localL cloudL baseL : List Account}
    {i : String} {a : Account}
    (h : a ∈ (mergeAccountEntry localL cloudL baseL i).1) : a.id = i := by
  rcases hl : goGet Account.id localL i with _ | l <;>
    rcases hc : goGet Account.id cloudL i with _ | c <;>
    simp only [mergeAccountEntry, hl, hc] at h
  · simp at h
  · rcases List.mem_singleton.mp h with rfl
    exact (goGet_eq_some _ hc).1
  · rcases List.mem_singleton.mp h with rfl
    exact (goGet_eq_some _ hl).1
  · have hli := (goGet_eq_some _ hl).1
    have hci := (goGet_eq_some _ hc).1
    rcases hb : goGet Account.id baseL i with _ | b <;>
      simp only [hb] at h <;> split_ifs at h <;>
      rcases List.mem_singleton.mp h with rfl <;>
      first | exact hli | exact hci

theorem mergeAccountEntry_conflict_id {localL cloudL baseL : List Account}
    {i : String} {cf : SyncConflict}
    (h : cf ∈ (mergeAccountEntry localL cloudL baseL i).2) : cf.id = i := by
  rcases hl : goGet Account.id localL i with _ | l <;>
    rcases hc : goGet Account.id cloudL i with _ | c <;>
    simp only [mergeAccountEntry, hl, hc] at h
  · simp at h
  · simp at h
  · simp at h
  · rcases hb : goGet Account.id baseL i with _ | b <;> simp only [hb] at h
    · split_ifs at h <;> simp at h
    · split_ifs at h <;> simp at h <;> rcases h with rfl | rfl <;> rfl

theorem mergeUnsubEntry_fst {localL cloudL : List UnsubscribedNewsletter}
    {s : String}
    (h : s ∈ localL.map UnsubscribedNewsletter.sender ∨
         s ∈ cloudL.map UnsubscribedNewsletter.sender) :
    ∃ n, (mergeUnsubEntry localL cloudL s).1 = [n] ∧ n.sender = s := by
  rcases hl : goGet UnsubscribedNewsletter.sender localL s with _ | l <;>
    rcases hc : goGet UnsubscribedNewsletter.sender cloudL s with _ | c
  · rcases h with h | h
    · rcases goGet_mem_map UnsubscribedNewsletter.sender h with ⟨a, ha⟩
      rw [hl] at ha; cases ha
    · rcases goGet_mem_map UnsubscribedNewsletter.sender h with ⟨a, ha⟩
      rw [hc] at ha; cases ha
  · exact ⟨c, by simp [mergeUnsubEntry, hl, hc], (goGet_eq_some _ hc).1⟩
  · exact ⟨l, by simp [mergeUnsubEntry, hl, hc], (goGet_eq_some _ hl).1⟩
  · simp only [mergeUnsubEntry, hl, hc]
    split_ifs
    · exact ⟨l, rfl, (goGet_eq_some _ hl).1⟩
    · exact ⟨c, rfl, (goGet_eq_some _ hc).1⟩

theorem mergeUnsubEntry_fst_sender {localL cloudL : List UnsubscribedNewsletter}
    {s : String} {n : UnsubscribedNewsletter}
    (h : n ∈ (mergeUnsubEntry localL cloudL s).1) : n.sender = s := by
  rcases hl : goGet UnsubscribedNewsletter.sender localL s with _ | l <;>
    rcases hc : goGet UnsubscribedNewsletter.sender cloudL s with _ | c <;>
    simp only [mergeUnsubEntry, hl, hc] at h
  · simp at h
  · rcases List.mem_singleton.mp h with rfl
    exact (goGet_eq_some _ hc).1
  · rcases List.mem_singleton.mp h with rfl
    exact (goGet_eq_some _ hl).1
  · split_ifs at h <;> rcases List.mem_singleton.mp h with rfl
    · exact (goGet_eq_some _ hl).1
    · exact (goGet_eq_some _ hc).1

theorem mergeUnsubEntry_conflict_id {localL cloudL : List UnsubscribedNewsletter}
    {s : String} {cf : SyncConflict}
    (h : cf ∈ (mergeUnsubEntry localL cloudL s).2) : cf.id = s := by
  rcases hl : goGet UnsubscribedNewsletter.sender localL s with _ | l <;>
    rcases hc : goGet UnsubscribedNewsletter.sender cloudL s with _ | c <;>
    simp only [mergeUnsubEntry, hl, hc] at h
  · simp at h
  · simp at h
  · simp at h
  · split_ifs at h <;> simp at h
    subst h
    rfl

/-! ### Generic helpers for reading off the fold decomposition -/

theorem flatMap_filter_key_nil {β : Type} (kf : β → String) :
    ∀ (keys : List String) (g : String → List β),
      (∀ j ∈ keys, ∀ x ∈ g j, kf x = j) → ∀ i, i ∉ keys →
      (keys.flatMap g).filter (fun x => kf x == i) = [] := by
  intro keys
  induction keys with
  | nil => intro g _ i _; simp
  | cons j rest ih =>
    intro g hid i hi
    rw [List.flatMap_cons, List.filter_append]
    rw [ih g (fun j' hj' => hid j' (by simp [hj'])) i (fun hm => hi (by simp [hm]))]
    rw [List.append_nil]
    apply List.filter_eq_nil_iff.mpr
    intro x hx
    have := hid j (by simp) x hx
    simp only [this, beq_iff_eq, Bool.not_eq_true]
    intro hji
    exact hi (by simp [hji])

theorem flatMap_filter_key {β : Type} (kf : β → String) :
    ∀ (keys : List String) (g : String → List β),
      (∀ j ∈ keys, ∀ x ∈ g j, kf x = j) → keys.Nodup → ∀ i, i ∈ keys →
      (keys.flatMap g).filter (fun x => kf x == i) = g i := by
  intro keys
  induction keys with
  | nil => intro g _ _ i hi; simp at hi
  | cons j rest ih =>
    intro g hid hnd i hi
    rcases List.nodup_cons.mp hnd with ⟨hj, hrest⟩
    rw [List.flatMap_cons, List.filter_append]
    rcases List.mem_cons.mp hi with rfl | hi'
    · rw [flatMap_filter_key_nil kf rest g
        (fun j' hj' => hid j' (by simp [hj'])) i hj]
      rw [List.append_nil]
      apply List.filter_eq_self.mpr
      intro x hx
      simp [hid i (by simp) x hx]
    · rw [ih g (fun j' hj' => hid j' (by simp [hj'])) hrest i hi']
      have hji : j ≠ i := fun hq => hj (hq ▸ hi')
      have : (g j).filter (fun x => kf x == i) = [] := by
        apply List.filter_eq_nil_iff.mpr
        intro x hx
        simp only [hid j (by simp) x hx, beq_iff_eq, Bool.not_eq_true]
        exact hji
      rw [this, List.nil_append]

theorem flatMap_map_eq_self {α : Type} (key : α → String) :
    ∀ (l : List α) (f : String → List α), (∀ a ∈ l, f (key a) = [a]) →
      (l.map key).flatMap f = l := by
  intro l
  induction l with
  | nil => intro f _; simp
  | cons a rest ih =>
    intro f hf
    rw [List.map_cons, List.flatMap_cons, hf a (by simp),
      ih f (fun a' ha' => hf a' (by simp [ha']))]
    rfl

theorem flatMap_eq_nil_of {β : Type} :
    ∀ (ks : List String) (g : String → List β), (∀ i ∈ ks, g i = []) →
      ks.flatMap g = [] := by
  intro ks
  induction ks with
  | nil => intro g _; simp
  | cons j rest ih =>
    intro g hg
    rw [List.flatMap_cons, hg j (by simp),
      ih g (fun j' hj' => hg j' (by simp [hj'])), List.nil_append]

theorem allKeys_self {α : Type} (key : α → String) (l : List α)
    (h : (l.map key).Nodup) : allKeys key l l = l.map key := by
  unfold allKeys dedupKeys
  rw [dedupAux_append]
  rw [dedupAux_of_fresh h (by simp)]
  rw [dedupAux_of_sub (by intro i hi; simpa using hi)]
  simp

theorem flatMap_eq_keys :
    ∀ (ks : List String) (g : String → List String),
      (∀ i ∈ ks, g i = [i]) → ks.flatMap g = ks := by
  intro ks
  induction ks with
  | nil => intro g _; simp
  | cons j rest ih =>
    intro g hg
    rw [List.flatMap_cons, hg j (by simp),
      ih g (fun j' hj' => hg j' (by simp [hj']))]
    rfl

theorem mergedAccounts_map_id (localL cloudL baseL : List Account) :
    (ThreeWayMergeAccounts localL cloudL baseL).1.map Account.id =
      allKeys Account.id localL cloudL := by
  rw [mergeAccounts_decomp, List.map_flatMap]
  apply flatMap_eq_keys
  intro i hi
  rcases @mergeAccountEntry_fst localL cloudL baseL i
    ((mem_allKeys _ _ _ i).mp hi) with ⟨a, ha, haid⟩
  rw [ha]
  simp [haid]

theorem mergedUnsub_map_sender (localL cloudL baseL : List UnsubscribedNewsletter) :
    (ThreeWayMergeUnsubscribed localL cloudL baseL).1.map
        UnsubscribedNewsletter.sender =
      allKeys UnsubscribedNewsletter.sender localL cloudL := by
  rw [mergeUnsub_decomp, List.map_flatMap]
  apply flatMap_eq_keys
  intro s hs
  rcases @mergeUnsubEntry_fst localL cloudL s
    ((mem_allKeys _ _ _ s).mp hs) with ⟨n, hn, hns⟩
  rw [hn]
  simp [hns]

/-! ### Claim theorems about the merge engine -/

/-- C8: `ThreeWayMerge` is idempotent: merging a collection with itself
against itself returns the collection unchanged with no conflicts, for both
the accounts merge and the unsubscribed merge (identifiers assumed
distinct). -/
theorem threeWayMerge_idempotent (m : List Account)
    (u : List UnsubscribedNewsletter)
    (hm : (m.map Account.id).Nodup)
    (hu : (u.map UnsubscribedNewsletter.sender).Nodup) :
    ThreeWayMergeAccounts m m m = (m, []) ∧
    ThreeWayMergeUnsubscribed u u u = (u, []) := by
  constructor
  · have hent : ∀ a ∈ m, mergeAccountEntry m m m a.id = ([a], []) := by
      intro a ha
      have hg := goGet_self Account.id hm ha
      simp [mergeAccountEntry, hg]
    rw [mergeAccounts_decomp, allKeys_self Account.id m hm]
    simp only [Prod.mk.injEq]
    constructor
    · exact flatMap_map_eq_self Account.id m _
        (fun a ha => by rw [hent a ha])
    · apply flatMap_eq_nil_of
      intro i hi
      rcases List.mem_map.mp hi with ⟨a, ha, rfl⟩
      rw [hent a ha]
  · have hent : ∀ n ∈ u, mergeUnsubEntry u u n.sender = ([n], []) := by
      intro n hn
      have hg := goGet_self UnsubscribedNewsletter.sender hu hn
      simp [mergeUnsubEntry, hg, dayNanos]
    rw [mergeUnsub_decomp, allKeys_self UnsubscribedNewsletter.sender u hu]
    simp only [Prod.mk.injEq]
    constructor
    · exact flatMap_map_eq_self UnsubscribedNewsletter.sender u _
        (fun n hn => by rw [hent n hn])
    · apply flatMap_eq_nil_of
      intro s hs
      rcases List.mem_map.mp hs with ⟨n, hn, rfl⟩
      rw [hent n hn]

/-- C8 witness: idempotence at a concrete account and unsubscribed entry. -/
theorem threeWayMerge_idempotent_witness :
    ThreeWayMergeAccounts
        [⟨"a@x.com", "A", "a@x.com", "imap.x.com", "pw", 10⟩]
        [⟨"a@x.com", "A", "a@x.com", "imap.x.com", "pw", 10⟩]
        [⟨"a@x.com", "A", "a@x.com", "imap.x.com", "pw", 10⟩] =
      ([⟨"a@x.com", "A", "a@x.com", "imap.x.com", "pw", 10⟩], []) ∧
    ThreeWayMergeUnsubscribed [⟨"news@y.com", 77⟩] [⟨"news@y.com", 77⟩]
        [⟨"news@y.com", 77⟩] =
      ([⟨"news@y.com", 77⟩], []) :=
  threeWayMerge_idempotent _ _ (by decide) (by decide)

/-- C9: the identifiers of the merged collection are exactly the union of the
local and cloud identifiers, each exactly once; identifiers only in the base
never appear (for both merges). -/
theorem threeWayMerge_id_union
    (localA cloudA baseA : List Account)
    (localU cloudU baseU : List UnsubscribedNewsletter)
    (_h1 : (localA.map Account.id).Nodup)
    (_h2 : (cloudA.map Account.id).Nodup)
    (_h3 : (baseA.map Account.id).Nodup)
    (_h4 : (localU.map UnsubscribedNewsletter.sender).Nodup)
    (_h5 : (cloudU.map UnsubscribedNewsletter.sender).Nodup)
    (_h6 : (baseU.map UnsubscribedNewsletter.sender).Nodup) :
    ((ThreeWayMergeAccounts localA cloudA baseA).1.map Account.id).Nodup ∧
    (∀ i, i ∈ (ThreeWayMergeAccounts localA cloudA baseA).1.map Account.id ↔
      i ∈ localA.map Account.id ∨ i ∈ cloudA.map Account.id) ∧
    ((ThreeWayMergeUnsubscribed localU cloudU baseU).1.map
      UnsubscribedNewsletter.sender).Nodup ∧
    (∀ s, s ∈ (ThreeWayMergeUnsubscribed localU cloudU baseU).1.map
        UnsubscribedNewsletter.sender ↔
      s ∈ localU.map UnsubscribedNewsletter.sender ∨
      s ∈ cloudU.map UnsubscribedNewsletter.sender) := by
  refine ⟨?_, ?_, ?_, ?_⟩
  · rw [mergedAccounts_map_id]
    exact allKeys_nodup _ _ _
  · intro i
    rw [mergedAccounts_map_id]
    exact mem_allKeys _ _ _ i
  · rw [mergedUnsub_map_sender]
    exact allKeys_nodup _ _ _
  · intro s
    rw [mergedUnsub_map_sender]
    exact mem_allKeys _ _ _ s

/-- C9 witness: concrete disjoint-and-overlapping inputs. -/
theorem threeWayMerge_id_union_witness :
    ((ThreeWayMergeAccounts
        [⟨"a@x.com", "A", "a@x.com", "s1", "", 1⟩]
        [⟨"b@x.com", "B", "b@x.com", "s2", "", 2⟩]
        [⟨"c@x.com", "C", "c@x.com", "s3", "", 3⟩]).1.map Account.id).Nodup ∧
    ("c@x.com" ∈ (ThreeWayMergeAccounts
        [⟨"a@x.com", "A", "a@x.com", "s1", "", 1⟩]
        [⟨"b@x.com", "B", "b@x.com", "s2", "", 2⟩]
        [⟨"c@x.com", "C", "c@x.com", "s3", "", 3⟩]).1.map Account.id ↔
      "c@x.com" ∈ ([⟨"a@x.com", "A", "a@x.com", "s1", "", 1⟩] :
          List Account).map Account.id ∨
      "c@x.com" ∈ ([⟨"b@x.com", "B", "b@x.com", "s2", "", 2⟩] :
          List Account).map Account.id) := by
  have h := threeWayMerge_id_union
    [⟨"a@x.com", "A", "a@x.com", "s1", "", 1⟩]
    [⟨"b@x.com", "B", "b@x.com", "s2", "", 2⟩]
    [⟨"c@x.com", "C", "c@x.com", "s3", "", 3⟩]
    [] [] []
    (by decide) (by decide) (by decide) (by decide) (by decide) (by decide)
  exact ⟨h.1, h.2.1 "c@x.com"⟩

/-- C5: present in both local and cloud but absent from base: the strictly
later creation timestamp wins, local wins exact ties, and no conflict is
recorded for that identifier. -/
theorem mergeAccounts_no_base_timestamp_tiebreak
    (localL cloudL baseL : List Account) (i : String) (l c : Account)
    (hl : goGet Account.id localL i = some l)
    (hc : goGet Account.id cloudL i = some c)
    (hb : goGet Account.id baseL i = none) :
    (l.createdAt > c.createdAt →
      l ∈ (ThreeWayMergeAccounts localL cloudL baseL).1) ∧
    (c.createdAt > l.createdAt →
      c ∈ (ThreeWayMergeAccounts localL cloudL baseL).1) ∧
    (l.createdAt = c.createdAt →
      l ∈ (ThreeWayMergeAccounts localL cloudL baseL).1) ∧
    (∀ cf ∈ (ThreeWayMergeAccounts localL cloudL baseL).2, cf.id ≠ i) := by
  have hiL : i ∈ localL.map Account.id :=
    List.mem_map.mpr ⟨l, (goGet_eq_some _ hl).2, (goGet_eq_some _ hl).1⟩
  have hik : i ∈ allKeys Account.id localL cloudL :=
    (mem_allKeys _ _ _ i).mpr (Or.inl hiL)
  refine ⟨?_, ?_, ?_, ?_⟩
  · intro ht
    rw [mergeAccounts_decomp]
    exact List.mem_flatMap.mpr ⟨i, hik,
      by simp [mergeAccountEntry, hl, hc, hb, ht]⟩
  · intro ht
    rw [mergeAccounts_decomp]
    exact List.mem_flatMap.mpr ⟨i, hik,
      by simp [mergeAccountEntry, hl, hc, hb, ht, asymm ht]⟩
  · intro ht
    rw [mergeAccounts_decomp]
    exact List.mem_flatMap.mpr ⟨i, hik,
      by simp [mergeAccountEntry, hl, hc, hb, ht]⟩
  · intro cf hcf hq
    rw [mergeAccounts_decomp] at hcf
    rcases List.mem_flatMap.mp hcf with ⟨j, _, hcfj⟩
    have hji := mergeAccountEntry_conflict_id hcfj
    rw [hq] at hji
    subst hji
    revert hcfj
    simp [mergeAccountEntry, hl, hc, hb]
    split_ifs <;> simp

/-- C5 witness: concrete two-account no-base tie-break (local strictly
later). -/
theorem mergeAccounts_no_base_timestamp_tiebreak_witness :
    (⟨"a@x.com", "Local", "a@x.com", "s1", "", 9⟩ : Account) ∈
      (ThreeWayMergeAccounts
        [⟨"a@x.com", "Local", "a@x.com", "s1", "", 9⟩]
        [⟨"a@x.com", "Cloud", "a@x.com", "s2", "", 3⟩] []).1 ∧
    (∀ cf ∈ (ThreeWayMergeAccounts
        [⟨"a@x.com", "Local", "a@x.com", "s1", "", 9⟩]
        [⟨"a@x.com", "Cloud", "a@x.com", "s2", "", 3⟩] []).2,
      cf.id ≠ "a@x.com") := by
  have h := mergeAccounts_no_base_timestamp_tiebreak
    [⟨"a@x.com", "Local", "a@x.com", "s1", "", 9⟩]
    [⟨"a@x.com", "Cloud", "a@x.com", "s2", "", 3⟩] [] "a@x.com"
    ⟨"a@x.com", "Local", "a@x.com", "s1", "", 9⟩
    ⟨"a@x.com", "Cloud", "a@x.com", "s2", "", 3⟩
    (by decide) (by decide) (by decide)
  exact ⟨h.1 (by decide), h.2.2.2⟩

/-- C1 counterexample: local and cloud both changed the email relative to
base and their emails disagree, yet `ThreeWayMergeAccounts` emits no
conflict at all (the claimed `email` conflict record is missing); the merge
still keeps the local entity. -/
theorem mergeAccounts_email_conflict_not_emitted :
    ThreeWayMergeAccounts
        [⟨"a@x.com", "N", "e1@x.com", "S", "", 0⟩]
        [⟨"a@x.com", "N", "e2@x.com", "S", "", 0⟩]
        [⟨"a@x.com", "N", "e0@x.com", "S", "", 0⟩] =
      ([⟨"a@x.com", "N", "e1@x.com", "S", "", 0⟩], []) ∧
    ("e1@x.com" : String) ≠ "e2@x.com" ∧
    ("e1@x.com" : String) ≠ "e0@x.com" ∧
    ("e2@x.com" : String) ≠ "e0@x.com" := by
  refine ⟨by decide, by decide, by decide, by decide⟩

/-- C1 amended: when an identifier is in local, cloud and base and both
sides changed relative to base, the merged collection keeps the local entity
unchanged, and the conflicts recorded for that identifier are exactly the
name disagreement and the server disagreement (email disagreements are not
recorded). -/
theorem mergeAccounts_both_changed_local_wins
    (localL cloudL baseL : List Account) (i : String) (l c b : Account)
    (hl : goGet Account.id localL i = some l)
    (hc : goGet Account.id cloudL i = some c)
    (hb : goGet Account.id baseL i = some b)
    (hlc : l.name ≠ b.name ∨ l.server ≠ b.server ∨ l.email ≠ b.email)
    (hcc : c.name ≠ b.name ∨ c.server ≠ b.server ∨ c.email ≠ b.email) :
    l ∈ (ThreeWayMergeAccounts localL cloudL baseL).1 ∧
    (ThreeWayMergeAccounts localL cloudL baseL).2.filter
        (fun cf => cf.id == i) =
      (if l.name != c.name then
        [⟨"account", i, "name", .str l.name, .str c.name,
          false, l.createdAt, c.createdAt⟩]
       else []) ++
      (if l.server != c.server then
        [⟨"account", i, "server", .str l.server, .str c.server,
          false, l.createdAt, c.createdAt⟩]
       else []) := by
  have hiL : i ∈ localL.map Account.id :=
    List.mem_map.mpr ⟨l, (goGet_eq_some _ hl).2, (goGet_eq_some _ hl).1⟩
  have hik : i ∈ allKeys Account.id localL cloudL :=
    (mem_allKeys _ _ _ i).mpr (Or.inl hiL)
  have hboth : ((l.name != b.name || l.server != b.server ||
      l.email != b.email) &&
      (c.name != b.name || c.server != b.server || c.email != b.email))
      = true := by
    simp only [Bool.and_eq_true, Bool.or_eq_true, bne_iff_ne]
    constructor <;> tauto
  constructor
  · rw [mergeAccounts_decomp]
    exact List.mem_flatMap.mpr ⟨i, hik,
      by simp only [mergeAccountEntry, hl, hc, hb, hboth, if_true]
         simp⟩
  · rw [mergeAccounts_decomp]
    rw [flatMap_filter_key SyncConflict.id _ _
      (fun j _ x hx => mergeAccountEntry_conflict_id hx)
      (allKeys_nodup _ _ _) i hik]
    simp only [mergeAccountEntry, hl, hc, hb, hboth, if_true]

/-- C1 amended witness: name and email disagree, server agrees; exactly one
(name) conflict is recorded and local is kept. -/
theorem mergeAccounts_both_changed_local_wins_witness :
    (⟨"a@x.com", "L", "l@x.com", "S", "", 4⟩ : Account) ∈
      (ThreeWayMergeAccounts
        [⟨"a@x.com", "L", "l@x.com", "S", "", 4⟩]
        [⟨"a@x.com", "C", "c@x.com", "S", "", 7⟩]
        [⟨"a@x.com", "B", "b@x.com", "S", "", 1⟩]).1 ∧
    (ThreeWayMergeAccounts
        [⟨"a@x.com", "L", "l@x.com", "S", "", 4⟩]
        [⟨"a@x.com", "C", "c@x.com", "S", "", 7⟩]
        [⟨"a@x.com", "B", "b@x.com", "S", "", 1⟩]).2.filter
      (fun cf => cf.id == "a@x.com") =
      [⟨"account", "a@x.com", "name", .str "L", .str "C", false, 4, 7⟩] := by
  have h := mergeAccounts_both_changed_local_wins
    [⟨"a@x.com", "L", "l@x.com", "S", "", 4⟩]
    [⟨"a@x.com", "C", "c@x.com", "S", "", 7⟩]
    [⟨"a@x.com", "B", "b@x.com", "S", "", 1⟩] "a@x.com"
    ⟨"a@x.com", "L", "l@x.com", "S", "", 4⟩
    ⟨"a@x.com", "C", "c@x.com", "S", "", 7⟩
    ⟨"a@x.com", "B", "b@x.com", "S", "", 1⟩
    (by decide) (by decide) (by decide)
    (by simp) (by simp)
  refine ⟨h.1, ?_⟩
  rw [h.2]
  decide

/-- C3: a sender present on both sides is merged with the earlier of the two
timestamps, and exactly one conflict for that sender is recorded precisely
when the timestamps differ by more than 24 hours. -/
theorem mergeUnsubscribed_min_timestamp_conflict_window
    (localL cloudL baseL : List UnsubscribedNewsletter) (s : String)
    (li ci : UnsubscribedNewsletter)
    (hl : goGet UnsubscribedNewsletter.sender localL s = some li)
    (hc : goGet UnsubscribedNewsletter.sender cloudL s = some ci) :
    (⟨s, min li.unsubscribedAt ci.unsubscribedAt⟩ : UnsubscribedNewsletter) ∈
      (ThreeWayMergeUnsubscribed localL cloudL baseL).1 ∧
    (ThreeWayMergeUnsubscribed localL cloudL baseL).2.filter
        (fun cf => cf.id == s) =
      (if |li.unsubscribedAt - ci.unsubscribedAt| ≤ dayNanos then []
       else [⟨"unsubscribed", s, "unsubscribed_at",
              .time li.unsubscribedAt, .time ci.unsubscribedAt,
              false, li.unsubscribedAt, ci.unsubscribedAt⟩]) := by
  have hsl : li.sender = s := (goGet_eq_some _ hl).1
  have hsc : ci.sender = s := (goGet_eq_some _ hc).1
  have hiL : s ∈ localL.map UnsubscribedNewsletter.sender :=
    List.mem_map.mpr ⟨li, (goGet_eq_some _ hl).2, hsl⟩
  have hik : s ∈ allKeys UnsubscribedNewsletter.sender localL cloudL :=
    (mem_allKeys _ _ _ s).mpr (Or.inl hiL)
  constructor
  · rw [mergeUnsub_decomp]
    refine List.mem_flatMap.mpr ⟨s, hik, ?_⟩
    simp only [mergeUnsubEntry, hl, hc]
    have : (if li.unsubscribedAt < ci.unsubscribedAt then li else ci) =
        (⟨s, min li.unsubscribedAt ci.unsubscribedAt⟩ :
          UnsubscribedNewsletter) := by
      split_ifs with hlt
      · cases li
        simp_all [min_eq_left (le_of_lt hlt)]
      · cases ci
        simp_all [min_eq_right (le_of_not_lt hlt)]
    simp [this]
  · rw [mergeUnsub_decomp]
    rw [flatMap_filter_key SyncConflict.id _ _
      (fun j _ x hx => mergeUnsubEntry_conflict_id hx)
      (allKeys_nodup _ _ _) s hik]
    simp only [mergeUnsubEntry, hl, hc]
    rcases le_or_lt |li.unsubscribedAt - ci.unsubscribedAt| dayNanos with
      hle | hgt
    · rw [if_pos hle]
      have h1 := (abs_le.mp hle).1
      have h2 := (abs_le.mp hle).2
      have : (li.unsubscribedAt - ci.unsubscribedAt > dayNanos ||
          li.unsubscribedAt - ci.unsubscribedAt < -dayNanos) = false := by
        simp only [Bool.or_eq_false_iff, decide_eq_false_iff_not, not_lt]
        omega
      simp [this]
    · rw [if_neg (not_le.mpr hgt)]
      have : (li.unsubscribedAt - ci.unsubscribedAt > dayNanos ||
          li.unsubscribedAt - ci.unsubscribedAt < -dayNanos) = true := by
        simp only [Bool.or_eq_true, decide_eq_true_eq]
        rcases lt_abs.mp hgt with h | h
        · left; exact h
        · right; omega
      simp [this]

/-- C3 witness: same sender 48 hours apart on the two sides: merged entry
carries the earlier timestamp and exactly one conflict is recorded. -/
theorem mergeUnsubscribed_min_timestamp_conflict_window_witness :
    (⟨"news@y.com", 0⟩ : UnsubscribedNewsletter) ∈
      (ThreeWayMergeUnsubscribed [⟨"news@y.com", 172800000000000⟩]
        [⟨"news@y.com", 0⟩] []).1 ∧
    (ThreeWayMergeUnsubscribed [⟨"news@y.com", 172800000000000⟩]
        [⟨"news@y.com", 0⟩] []).2.filter
      (fun cf => cf.id == "news@y.com") =
      [⟨"unsubscribed", "news@y.com", "unsubscribed_at",
        .time 172800000000000, .time 0, false, 172800000000000, 0⟩] := by
  have h := mergeUnsubscribed_min_timestamp_conflict_window
    [⟨"news@y.com", 172800000000000⟩] [⟨"news@y.com", 0⟩] [] "news@y.com"
    ⟨"news@y.com", 172800000000000⟩ ⟨"news@y.com", 0⟩
    (by decide) (by decide)
  constructor
  · simpa using h.1
  · rw [h.2]
    norm_num [dayNanos]

/-! ### Checksum theorems -/

/-- Sanity check of the SHA-256 embedding against the FIPS 180 test vector
for `"abc"`. -/
theorem sha256Hex_abc :
    sha256Hex (utf8Bytes "abc") =
      "ba7816bf8f01cfea414140de5dae2223b00361a396177a9cb410ff61f20015ad" := by
  decide

/-- C4 counterexample: the two checksum functions depend on list order:
swapping two entries (a permutation, so the same content as a set) changes
the checksum. -/
theorem calculateChecksum_order_dependent :
    CalculateChecksum
        [⟨"a@x.com", "A", "a@x.com", "s1", "", 0⟩,
         ⟨"b@x.com", "B", "b@x.com", "s2", "", 0⟩] ≠
      CalculateChecksum
        [⟨"b@x.com", "B", "b@x.com", "s2", "", 0⟩,
         ⟨"a@x.com", "A", "a@x.com", "s1", "", 0⟩] ∧
    CalculateUnsubscribedChecksum [⟨"s1@x.com", 0⟩, ⟨"s2@x.com", 0⟩] ≠
      CalculateUnsubscribedChecksum [⟨"s2@x.com", 0⟩, ⟨"s1@x.com", 0⟩] ∧
    ([⟨"a@x.com", "A", "a@x.com", "s1", "", 0⟩,
      ⟨"b@x.com", "B", "b@x.com", "s2", "", 0⟩] : List Account).Perm
      [⟨"b@x.com", "B", "b@x.com", "s2", "", 0⟩,
       ⟨"a@x.com", "A", "a@x.com", "s1", "", 0⟩] := by
  refine ⟨by decide, by decide, List.Perm.swap _ _ _⟩

theorem accountData_foldl_congr :
    ∀ (A B : List Account) (acc : String),
      A.map (fun a => (a.id, a.name, a.email, a.server)) =
        B.map (fun a => (a.id, a.name, a.email, a.server)) →
      A.foldl
        (fun data a =>
          data ++ a.id ++ "|" ++ a.name ++ "|" ++ a.email ++ "|" ++
            a.server ++ "|") acc =
      B.foldl
        (fun data a =>
          data ++ a.id ++ "|" ++ a.name ++ "|" ++ a.email ++ "|" ++
            a.server ++ "|") acc := by
  intro A
  induction A with
  | nil =>
    intro B acc h
    cases B with
    | nil => rfl
    | cons b B2 => simp at h
  | cons a A2 ih =>
    intro B acc h
    cases B with
    | nil => simp at h
    | cons b B2 =>
      simp only [List.map_cons, List.cons.injEq, Prod.mk.injEq] at h
      obtain ⟨⟨e1, e2, e3, e4⟩, h2⟩ := h
      simp only [List.foldl_cons]
      rw [e1, e2, e3, e4]
      exact ih B2 _ h2

theorem unsubData_foldl_congr :
    ∀ (U V : List UnsubscribedNewsletter) (acc : String),
      U.map (fun n => (n.sender, n.unsubscribedAt)) =
        V.map (fun n => (n.sender, n.unsubscribedAt)) →
      U.foldl
        (fun data n => data ++ n.sender ++ "|" ++ timeText n.unsubscribedAt
          ++ "|") acc =
      V.foldl
        (fun data n => data ++ n.sender ++ "|" ++ timeText n.unsubscribedAt
          ++ "|") acc := by
  intro U
  induction U with
  | nil =>
    intro V acc h
    cases V with
    | nil => rfl
    | cons v V2 => simp at h
  | cons u U2 ih =>
    intro V acc h
    cases V with
    | nil => simp at h
    | cons v V2 =>
      simp only [List.map_cons, List.cons.injEq, Prod.mk.injEq] at h
      obtain ⟨⟨e1, e2⟩, h2⟩ := h
      simp only [List.foldl_cons]
      rw [e1, e2]
      exact ih V2 _ h2

/-- C4 amended: both checksums are deterministic functions of the serialized
field sequence in list order: two collections that agree entry-by-entry (in
the same order) on (ID, Name, Email, Server) — resp. (Sender,
UnsubscribedAt) — have equal checksums; order-independence does not hold. -/
theorem checksum_depends_on_field_sequence
    (A B : List Account) (U V : List UnsubscribedNewsletter)
    (hAB : A.map (fun a => (a.id, a.name, a.email, a.server)) =
           B.map (fun a => (a.id, a.name, a.email, a.server)))
    (hUV : U.map (fun n => (n.sender, n.unsubscribedAt)) =
           V.map (fun n => (n.sender, n.unsubscribedAt))) :
    CalculateChecksum A = CalculateChecksum B ∧
    CalculateUnsubscribedChecksum U = CalculateUnsubscribedChecksum V := by
  constructor
  · unfold CalculateChecksum accountChecksumData
    rw [accountData_foldl_congr A B "" hAB]
  · unfold CalculateUnsubscribedChecksum unsubChecksumData
    rw [unsubData_foldl_congr U V "" hUV]

/-- C4 amended witness: accounts differing only in the password and creation
timestamp fields hash identically. -/
theorem checksum_depends_on_field_sequence_witness :
    CalculateChecksum [⟨"a@x.com", "A", "a@x.com", "s1", "pw1", 1⟩] =
      CalculateChecksum [⟨"a@x.com", "A", "a@x.com", "s1", "pw2", 2⟩] ∧
    CalculateUnsubscribedChecksum [⟨"s1@x.com", 7⟩] =
      CalculateUnsubscribedChecksum [⟨"s1@x.com", 7⟩] :=
  checksum_depends_on_field_sequence
    [⟨"a@x.com", "A", "a@x.com", "s1", "pw1", 1⟩]
    [⟨"a@x.com", "A", "a@x.com", "s1", "pw2", 2⟩]
    [⟨"s1@x.com", 7⟩] [⟨"s1@x.com", 7⟩] rfl rfl

/-! ### Retry-queue theorems -/

/-- C2 (code bug): a queued operation whose push attempt fails with a
retryable (non-subscription) error is nevertheless dropped from the queue,
and `ProcessQueue` reports no error: the Go `err` consulted after the switch
is never assigned (the attempt's outcome goes to a shadowed variable), so
the retry/keep logic is unreachable.  The claim (keep the item, increment
`retries`, record the error) describes the intended behaviour written in
the function's own comments, not what the code does. -/
theorem processQueue_drops_retryable_failure :
    ProcessQueue true (fun _ => some "network timeout: connection refused")
        [pendingAccountsItem] = ([], none) ∧
    isSubscriptionError "network timeout: connection refused" = false := by
  exact ⟨rfl, by decide⟩

/-! ### Push (`Sync*ToCloud`) theorems -/

/-- C7: a push failing with a subscription-class error is returned
synchronously and never enqueued (queue unchanged); any other failure
enqueues the snapshot with retry count 0 — for both collections. -/
theorem syncToCloud_subscription_error_never_enqueued
    (now : Int) (accounts : List Account)
    (store : List UnsubscribedNewsletter)
    (queue : List PendingSync) (errStr : String) :
    (isSubscriptionError errStr = true →
      SyncAccountsToCloud true now accounts (.error errStr) queue =
        (queue, some ("sync failed: " ++ errStr), none) ∧
      SyncUnsubscribedToCloud true now store (.error errStr) queue =
        (queue, some ("sync failed: " ++ errStr), none)) ∧
    (isSubscriptionError errStr = false →
      SyncAccountsToCloud true now accounts (.error errStr) queue =
        (queue ++ [{ typ := "accounts", data := .accounts accounts,
                     queuedAt := now, retries := 0, lastError := "" }],
         some ("sync failed: " ++ errStr ++ " (queued for background retry)"),
         none) ∧
      SyncUnsubscribedToCloud true now store (.error errStr) queue =
        (queue ++ [{ typ := "unsubscribed", data := .unsubscribed store,
                     queuedAt := now, retries := 0, lastError := "" }],
         some ("sync failed: " ++ errStr ++ " (queued for background retry)"),
         none)) := by
  constructor <;> intro h <;> constructor <;>
    simp [SyncAccountsToCloud, SyncUnsubscribedToCloud, QueueSync, h]

/-- C7 witness: "active subscription required" is never enqueued and the
error is returned; "connection timed out" is enqueued with retry count 0. -/
theorem syncToCloud_subscription_error_never_enqueued_witness :
    SyncAccountsToCloud true 0 [] (.error "active subscription required") [] =
      ([], some "sync failed: active subscription required", none) ∧
    SyncAccountsToCloud true 0 [] (.error "connection timed out") [] =
      ([{ typ := "accounts", data := .accounts [], queuedAt := 0,
          retries := 0, lastError := "" }],
       some "sync failed: connection timed out (queued for background retry)",
       none) := by
  constructor
  · exact ((syncToCloud_subscription_error_never_enqueued 0 [] [] []
      "active subscription required").1 (by decide)).1
  · have h := ((syncToCloud_subscription_error_never_enqueued 0 [] [] []
      "connection timed out").2 (by decide)).1
    simpa using h

/-! ### Startup-check theorems -/

theorem mem_newAccounts {existing cloud : List Account} {a : Account}
    (h : a ∈ newAccounts existing cloud) :
    a.id ∉ existing.map Account.id := by
  rcases List.mem_filter.mp h with ⟨_, hp⟩
  simpa using hp

theorem mem_newUnsubs {existing cloud : List UnsubscribedNewsletter}
    {n : UnsubscribedNewsletter} (h : n ∈ newUnsubs existing cloud) :
    n.sender ∉ existing.map UnsubscribedNewsletter.sender := by
  rcases List.mem_filter.mp h with ⟨_, hp⟩
  simpa using hp

theorem accountsPhase_shape (env : AutoSyncEnv) (pc : PremiumState)
    (w : World) :
    (accountsPhase env pc w).2.2.unsub = w.unsub ∧
    (accountsPhase env pc w).2.2.premium = w.premium ∧
    (accountsPhase env pc w).2.2.pushCalls = w.pushCalls ∧
    ∃ added, (accountsPhase env pc w).2.2.accounts = w.accounts ++ added ∧
      ∀ a ∈ added, a.id ∉ w.accounts.map Account.id := by
  unfold accountsPhase
  split
  · exact ⟨rfl, rfl, rfl, [], by simp, by simp⟩
  · split
    · split
      · exact ⟨rfl, rfl, rfl, [], by simp, by simp⟩
      · dsimp only
        split_ifs
        · exact ⟨rfl, rfl, rfl, [], by simp, by simp⟩
        · exact ⟨rfl, rfl, rfl, [], by simp, by simp⟩
        · exact ⟨rfl, rfl, rfl, newAccounts w.accounts _, rfl,
            fun a ha => mem_newAccounts ha⟩
        · exact ⟨rfl, rfl, rfl, [], by simp, by simp⟩
    · exact ⟨rfl, rfl, rfl, [], by simp, by simp⟩

theorem unsubPhase_preserves (env : AutoSyncEnv) (pc : PremiumState)
    (w : World) :
    (unsubPhase env pc w).1.localAccountsVersion = pc.localAccountsVersion ∧
    (unsubPhase env pc w).2.2.accounts = w.accounts ∧
    (unsubPhase env pc w).2.2.pushCalls = w.pushCalls := by
  unfold unsubPhase
  split
  · exact ⟨rfl, rfl, rfl⟩
  · split
    · split
      · exact ⟨rfl, rfl, rfl⟩
      · dsimp only
        split_ifs <;> exact ⟨rfl, rfl, rfl⟩
    · exact ⟨rfl, rfl, rfl⟩

theorem unsubPhase_unsub_added (env : AutoSyncEnv) (pc : PremiumState)
    (w : World) (hload : env.unsubLoadOk = true) :
    ∃ added, (unsubPhase env pc w).2.2.unsub = w.unsub ++ added ∧
      ∀ n ∈ added, n.sender ∉ w.unsub.map UnsubscribedNewsletter.sender := by
  unfold unsubPhase
  simp only [hload]
  split
  · exact ⟨[], by simp, by simp⟩
  · split
    · split
      · exact ⟨[], by simp, by simp⟩
      · split_ifs <;>
          first
            | exact ⟨newUnsubs w.unsub _, rfl, fun n hn => mem_newUnsubs hn⟩
            | exact ⟨[], by simp, by simp⟩
    · exact ⟨[], by simp, by simp⟩

/-- C10: the startup pull is add-only: every locally present account and
unsubscribed entry survives the run unchanged (the old local list is a
prefix of the new one), and every appended entry has an identifier that was
absent locally (assuming the local unsubscribed store loads). -/
theorem checkAndSync_pull_add_only (env : AutoSyncEnv) (w : World)
    (hload : env.unsubLoadOk = true) :
    (∃ addedA, (CheckAndSyncIfNeeded env w).2.accounts =
        w.accounts ++ addedA ∧
      ∀ a ∈ addedA, a.id ∉ w.accounts.map Account.id) ∧
    (∃ addedU, (CheckAndSyncIfNeeded env w).2.unsub = w.unsub ++ addedU ∧
      ∀ n ∈ addedU, n.sender ∉ w.unsub.map
        UnsubscribedNewsletter.sender) := by
  obtain ⟨hu1, _, _, A1, hA1, hA1f⟩ := accountsPhase_shape env w.premium w
  obtain ⟨_, hacc2, _⟩ := unsubPhase_preserves env
    (accountsPhase env w.premium w).1 (accountsPhase env w.premium w).2.2
  obtain ⟨U1, hU1, hU1f⟩ := unsubPhase_unsub_added env
    (accountsPhase env w.premium w).1 (accountsPhase env w.premium w).2.2
    hload
  rw [hu1] at hU1 hU1f
  rw [hA1] at hacc2
  unfold CheckAndSyncIfNeeded
  by_cases hp : env.premiumEnabled = false
  · rw [if_pos hp]
    exact ⟨⟨[], by simp, by simp⟩, ⟨[], by simp, by simp⟩⟩
  · rw [if_neg hp]
    dsimp only
    split_ifs <;> exact ⟨⟨A1, hacc2, hA1f⟩, ⟨U1, hU1, hU1f⟩⟩

/-- C10 witness: the concrete stale run leaves local state untouched. -/
theorem checkAndSync_pull_add_only_witness :
    (∃ addedA, (CheckAndSyncIfNeeded staleEnv staleWorld).2.accounts =
        staleWorld.accounts ++ addedA ∧
      ∀ a ∈ addedA, a.id ∉ staleWorld.accounts.map Account.id) ∧
    (∃ addedU, (CheckAndSyncIfNeeded staleEnv staleWorld).2.unsub =
        staleWorld.unsub ++ addedU ∧
      ∀ n ∈ addedU, n.sender ∉ staleWorld.unsub.map
        UnsubscribedNewsletter.sender) :=
  checkAndSync_pull_add_only staleEnv staleWorld rfl

/-- C6 counterexample: the remote accounts version (2) is strictly greater
than the remembered version (1), but the pull brings no new account ID, so
`synced` stays false, the premium config is never persisted, and after the
run the persisted remembered version is still 1 — the claim's "updates the
persisted remembered version to the freshly-read remote version" fails. -/
theorem checkAndSync_version_not_persisted :
    staleEnv.getAccounts1 = .ok staleAccountsData ∧
    staleAccountsData.version = 2 ∧
    staleWorld.premium.localAccountsVersion = 1 ∧
    (CheckAndSyncIfNeeded staleEnv staleWorld).2 = staleWorld ∧
    (CheckAndSyncIfNeeded staleEnv staleWorld).1.1 = false := by
  refine ⟨rfl, rfl, rfl, by decide, by decide⟩

theorem accountsPhase_pc_unsubVersion (env : AutoSyncEnv) (pc : PremiumState)
    (w : World) :
    (accountsPhase env pc w).1.localUnsubscribedVersion =
      pc.localUnsubscribedVersion := by
  unfold accountsPhase
  split
  · rfl
  · split
    · split
      · rfl
      · dsimp only
        split_ifs <;> rfl
    · rfl

/-- The successful unsubscribed pull: both reads succeed, the remote version
is newer, the store loads and parses, at least one new sender is appended
and the save succeeds.  The in-memory premium config gets the freshly-read
version, `synced` is set, and the new senders are appended. -/
theorem unsubPhase_success (env : AutoSyncEnv) (pc : PremiumState) (w : World)
    (u1 u2 : UnsubData)
    (hg1 : env.getUnsub1 = .ok u1)
    (hver : u1.version > pc.localUnsubscribedVersion)
    (hg2 : env.getUnsub2 = .ok u2)
    (hparse : env.unsubParseOk = true)
    (hload : env.unsubLoadOk = true)
    (hnew : newUnsubs w.unsub u2.newsletters ≠ [])
    (hsave : env.unsubSaveOk = true) :
    (unsubPhase env pc w).1 =
      { pc with localUnsubscribedVersion := u1.version } ∧
    (unsubPhase env pc w).2.1 = true ∧
    (unsubPhase env pc w).2.2.unsub =
      w.unsub ++ newUnsubs w.unsub u2.newsletters := by
  unfold unsubPhase
  rw [hg1]
  by_cases hbe : env.premiumSaveBestEffortOk = true <;>
    simp [hver, hg2, hparse, hload, hnew, hsave, hbe]

/-- C6 amended: for each of the two collections, when the startup check
reads a remote version strictly greater than the remembered one and the
pulled collection contains at least one locally-absent identifier (and the
I/O steps succeed), it appends exactly those entries to the local
collection and persists the remembered version as the freshly-read remote
version; and the startup check performs no push. -/
theorem checkAndSync_pull_appends_and_persists_version
    (env : AutoSyncEnv) (w : World)
    (henv : env.premiumEnabled = true)
    (hpsave : env.premiumSaveOk = true) :
    (CheckAndSyncIfNeeded env w).2.pushCalls = w.pushCalls ∧
    (∀ d1 d2 : AccountsData,
      env.getAccounts1 = .ok d1 →
      d1.version > w.premium.localAccountsVersion →
      env.getAccounts2 = .ok d2 →
      env.cfgLoadOk = true →
      newAccounts w.accounts d2.accounts ≠ [] →
      env.cfgSaveOk = true →
      (CheckAndSyncIfNeeded env w).1.1 = true ∧
      (CheckAndSyncIfNeeded env w).2.accounts =
        w.accounts ++ newAccounts w.accounts d2.accounts ∧
      (CheckAndSyncIfNeeded env w).2.premium.localAccountsVersion =
        d1.version) ∧
    (∀ u1 u2 : UnsubData,
      env.getUnsub1 = .ok u1 →
      u1.version > w.premium.localUnsubscribedVersion →
      env.getUnsub2 = .ok u2 →
      env.unsubParseOk = true →
      env.unsubLoadOk = true →
      newUnsubs w.unsub u2.newsletters ≠ [] →
      env.unsubSaveOk = true →
      (CheckAndSyncIfNeeded env w).1.1 = true ∧
      (CheckAndSyncIfNeeded env w).2.unsub =
        w.unsub ++ newUnsubs w.unsub u2.newsletters ∧
      (CheckAndSyncIfNeeded env w).2.premium.localUnsubscribedVersion =
        u1.version) := by
  refine ⟨?_, ?_, ?_⟩
  · obtain ⟨_, _, hpc1, _⟩ := accountsPhase_shape env w.premium w
    obtain ⟨_, _, hpc2⟩ := unsubPhase_preserves env
      (accountsPhase env w.premium w).1 (accountsPhase env w.premium w).2.2
    unfold CheckAndSyncIfNeeded
    rw [henv]
    simp only [Bool.true_eq_false, if_false]
    split_ifs <;> rw [hpc2] <;> exact hpc1
  · intro d1 d2 hga1 hver hga2 hcfg hnew hsave
    have hA : accountsPhase env w.premium w =
        ({ w.premium with localAccountsVersion := d1.version }, true,
         { w with accounts :=
            w.accounts ++ newAccounts w.accounts d2.accounts }) := by
      unfold accountsPhase
      rw [hga1]
      simp [hver, hga2, hcfg, hnew, hsave]
    obtain ⟨hv2, hacc2, _⟩ := unsubPhase_preserves env
      ({ w.premium with localAccountsVersion := d1.version })
      ({ w with accounts :=
          w.accounts ++ newAccounts w.accounts d2.accounts })
    unfold CheckAndSyncIfNeeded
    rw [henv]
    simp only [Bool.true_eq_false, if_false, hA, Bool.true_or, if_true,
      hpsave]
    exact ⟨by simp, hacc2, hv2⟩
  · intro u1 u2 hg1 hver hg2 hparse hload hnew hsave
    obtain ⟨hu1, _, _, _⟩ := accountsPhase_shape env w.premium w
    have hpcu := accountsPhase_pc_unsubVersion env w.premium w
    obtain ⟨hpc, hsy, huns⟩ := unsubPhase_success env
      (accountsPhase env w.premium w).1 (accountsPhase env w.premium w).2.2
      u1 u2 hg1 (by rw [hpcu]; exact hver) hg2 hparse hload
      (by rw [hu1]; exact hnew) hsave
    unfold CheckAndSyncIfNeeded
    rw [henv]
    simp only [Bool.true_eq_false, if_false]
    rw [hsy]
    simp only [Bool.or_true, if_true, hpsave]
    refine ⟨by simp, ?_, ?_⟩
    · rw [huns, hu1]
    · rw [hpc]

/-- C6 amended witness: the concrete fresh run appends the new account and
the new sender and persists remembered versions 2 and 3. -/
theorem checkAndSync_pull_appends_and_persists_version_witness :
    (CheckAndSyncIfNeeded freshEnv staleWorld).2.pushCalls =
      staleWorld.pushCalls ∧
    ((CheckAndSyncIfNeeded freshEnv staleWorld).1.1 = true ∧
     (CheckAndSyncIfNeeded freshEnv staleWorld).2.accounts =
       staleWorld.accounts ++
         newAccounts staleWorld.accounts freshAccountsData.accounts ∧
     (CheckAndSyncIfNeeded freshEnv
        staleWorld).2.premium.localAccountsVersion =
       freshAccountsData.version) ∧
    ((CheckAndSyncIfNeeded freshEnv staleWorld).1.1 = true ∧
     (CheckAndSyncIfNeeded freshEnv staleWorld).2.unsub =
       staleWorld.unsub ++
         newUnsubs staleWorld.unsub freshUnsubData.newsletters ∧
     (CheckAndSyncIfNeeded freshEnv
        staleWorld).2.premium.localUnsubscribedVersion =
       freshUnsubData.version) := by
  have h := checkAndSync_pull_appends_and_persists_version freshEnv
    staleWorld rfl rfl
  exact ⟨h.1,
    h.2.1 freshAccountsData freshAccountsData rfl (by decide) rfl rfl
      (by decide) rfl,
    h.2.2 freshUnsubData freshUnsubData rfl (by decide) rfl rfl rfl
      (by decide) rfl⟩

end NewsletterSync
